import Mathlib

/-!
# Verification of the DSSAT data-processing core

Shallow embedding of the data-processing functions of this repository
(`src/data/data_processing.py`, `src/data/dssat_io.py`, `src/models/metrics.py`)
and proofs of the frozen specification claims about them.

Conventions of the embedding:
* Python `None` / `NaN` / `NaT` results are modelled with `Option` (`none` = missing).
* A pandas timestamp produced by `pd.to_datetime(..., format="%Y%j")` is modelled
  by its (calendar year, ordinal day-of-year) pair `PDate`.
* Python string helpers (`strip`, `upper`, `split`, `startswith`, `[:-1]`,
  `endswith`) are modelled character-list-wise by the `py*` functions below.
-/

/-- A calendar date at day resolution, as (year, ordinal day-of-year).
`pd.Timestamp` values returned by the date conversion code are modelled this way;
`year`/`doy` determine the timestamp produced by format `%Y%j` and conversely. -/
structure PDate where
  year : Nat
  doy  : Nat
deriving DecidableEq, Repr

/-- Gregorian leap-year rule, as used by `datetime`/`pandas`. -/
def isLeap (y : Nat) : Bool := y % 4 == 0 && (y % 100 != 0 || y % 400 == 0)

/-- Number of days of calendar year `y`. -/
def daysInYear (y : Nat) : Nat := if isLeap y then 366 else 365

/-- `pd.Timestamp` only represents dates from 1677-09-22 (ordinal day 265 of 1677)
through 2262-04-11 (ordinal day 101 of 2262); outside this range
`pd.to_datetime` raises `OutOfBoundsDatetime` (a `ValueError`). -/
def tsInRange (p : PDate) : Prop :=
  (1677 < p.year ∨ (p.year = 1677 ∧ 265 ≤ p.doy)) ∧
  (p.year < 2262 ∨ (p.year = 2262 ∧ p.doy ≤ 101))

instance (p : PDate) : Decidable (tsInRange p) := by
  unfold tsInRange; infer_instance

/-- Resolution of a `%Y%j` match with year field `y` and day-of-year field `j`
(`1 ≤ j ≤ 366`, enforced by the `%j` pattern before this point).  Like
CPython's `_strptime` (which pandas' `array_strptime` ports), the date is
computed as `date(y,1,1).toordinal() + j - 1`, so day 366 of a common year
rolls over to January 1 of the following year.  Out-of-range results give
`none` (the raised `OutOfBoundsDatetime` is caught by the caller's
`except` clause, which returns `pd.NaT`). -/
def strptime_yj (y j : Nat) : Option PDate :=
  let p : PDate := if j ≤ daysInYear y then ⟨y, j⟩ else ⟨y + 1, j - daysInYear y⟩
  if tsInRange p then some p else none

/-- Numeric value of an ASCII digit character. -/
def digitVal (c : Char) : Nat := c.toNat - 48

/-- Value of a decimal digit string, as computed by Python `int(...)`. -/
def digitsVal (l : List Char) : Nat := l.foldl (fun a c => 10 * a + digitVal c) 0

/-- Python `str.strip()`. -/
def pyStrip (s : String) : String :=
  ⟨((s.toList.dropWhile Char.isWhitespace).reverse.dropWhile Char.isWhitespace).reverse⟩

/-- `unified_date_convert` (src/data/data_processing.py, lines 53-80).

The returned `Option PDate` is the produced timestamp; `none` is `pd.NaT`.
The three observable input modes are mirrored exactly:

* `date_str` given: strip it; if it is exactly 5 digits, split into a 2-digit
  year part and 3-digit day part, resolve the century (`≤ 30 → 20xx`, else
  `19xx`) and parse `f"{full_year}{doy_part:03d}"` with `%Y%j`.  `full_year`
  always has 4 digits here, so `%Y` consumes it and the zero-padded 3-digit
  remainder matches `%j` exactly when it denotes 1..366.  Otherwise `pd.NaT`.
* otherwise, `year`/`doy` both given (modelled as `Int`, `int(float(...))` of
  the inputs): after the `1 ≤ doy ≤ 366` guard the code parses
  `f"{year}{doy:03d}"` with `%Y%j`.  `%Y` consumes exactly the first four
  characters, which must be digits, and the remainder must match `%j`
  entirely, so the outcome depends on how many decimal digits `str(year)`
  has; each case below states the regrouped year/day fields.
* neither usable: `pd.NaT`.

`udc_from_str` is the `date_str` branch (lines 56-66). -/
def udc_from_str (ds : String) : Option PDate :=
  let t := pyStrip ds
  if t.length = 5 ∧ t.toList.all Char.isDigit = true then
    let year_part := digitsVal (t.toList.take 2)
    let doy_part  := digitsVal (t.toList.drop 2)
    let full_year := (if year_part ≤ 30 then 2000 else 1900) + year_part
    if 1 ≤ doy_part ∧ doy_part ≤ 366 then strptime_yj full_year doy_part else none
  else none

/-- The `(year, doy)` branch of `unified_date_convert` (lines 68-74). -/
def udc_from_year_doy (y d : Int) : Option PDate :=
  if 1 ≤ d ∧ d ≤ 366 then
    if y < 0 then none   -- str(year) starts with '-', which %Y cannot match
    else
      let yn := y.toNat
      let dn := d.toNat
      if 10 ≤ yn ∧ yn ≤ 99 then
        -- "yy" ++ "ddd": %Y reads yy·100 + dn/10; %j gets the last
        -- digit, which matches only when it is 1..9
        if 1 ≤ dn % 10 then strptime_yj (yn * 100 + dn / 10) (dn % 10) else none
      else if 100 ≤ yn ∧ yn ≤ 999 then
        -- "yyy" ++ "ddd": %Y reads yyy·10 + dn/100; %j gets the last
        -- two digits, which match only when they denote 1..99
        if 1 ≤ dn % 100 then strptime_yj (yn * 10 + dn / 100) (dn % 100) else none
      else if 1000 ≤ yn ∧ yn ≤ 9999 then
        -- 4-digit year: %Y reads it, %j the zero-padded day field
        strptime_yj yn dn
      else none   -- 0-1 digits or ≥ 5 digits: no exact %Y%j match
  else none

def unified_date_convert : Option Int → Option Int → Option String → Option PDate
  | _, _, some ds => udc_from_str ds
  | some y, some d, none => udc_from_year_doy y d
  | _, _, none => none

/-! ## Arithmetic facts about digit strings -/

theorem digitVal_le_nine {c : Char} (h : c.isDigit = true) : digitVal c ≤ 9 := by
  have h48 : 48 ≤ c.toNat ∧ c.toNat ≤ 57 := by
    simp only [Char.isDigit, decide_eq_true_eq, Bool.and_eq_true] at h
    constructor
    · exact h.1
    · exact h.2
  unfold digitVal
  omega

theorem digitsVal_foldl_lt (l : List Char) (a : Nat) (h : l.all Char.isDigit = true) :
    l.foldl (fun a c => 10 * a + digitVal c) a < (a + 1) * 10 ^ l.length := by
  induction l generalizing a with
  | nil =>
      simp only [List.foldl_nil, List.length_nil, pow_zero, mul_one]
      omega
  | cons c cs ih =>
      simp only [List.all_cons, Bool.and_eq_true] at h
      have hc : digitVal c ≤ 9 := digitVal_le_nine h.1
      have := ih (10 * a + digitVal c) h.2
      have hstep : (10 * a + digitVal c + 1) * 10 ^ cs.length ≤ (a + 1) * 10 ^ (cs.length + 1) := by
        have : 10 * a + digitVal c + 1 ≤ 10 * (a + 1) := by omega
        calc (10 * a + digitVal c + 1) * 10 ^ cs.length
            ≤ 10 * (a + 1) * 10 ^ cs.length := Nat.mul_le_mul_right _ this
          _ = (a + 1) * 10 ^ (cs.length + 1) := by ring
      simp only [List.foldl_cons, List.length_cons]
      exact lt_of_lt_of_le this hstep

theorem digitsVal_lt (l : List Char) (h : l.all Char.isDigit = true) :
    digitsVal l < 10 ^ l.length := by
  have := digitsVal_foldl_lt l 0 h
  simp only [Nat.zero_add, Nat.one_mul] at this
  exact this

/-! ## Claim C1: 5-digit compact date codes -/

/-- **C1.** A `date_str` that strips to exactly 5 digits whose trailing 3-digit
part is a valid ordinal day of the resolved year converts to the date whose
year is `2000 + year_part` when `year_part ≤ 30`, else `1900 + year_part`, and
whose day-of-year is the trailing part; in particular `"91060"` resolves to
(1991, day 60) and `"25005"` to (2025, day 5). -/
theorem c1_compact_code_resolution :
    (∀ (s : String) (year_part doy_part full_year : Nat),
      (pyStrip s).length = 5 →
      (pyStrip s).toList.all Char.isDigit = true →
      year_part = digitsVal ((pyStrip s).toList.take 2) →
      doy_part = digitsVal ((pyStrip s).toList.drop 2) →
      full_year = (if year_part ≤ 30 then 2000 else 1900) + year_part →
      1 ≤ doy_part → doy_part ≤ daysInYear full_year →
      unified_date_convert none none (some s) = some ⟨full_year, doy_part⟩) ∧
    unified_date_convert none none (some "91060") = some ⟨1991, 60⟩ ∧
    unified_date_convert none none (some "25005") = some ⟨2025, 5⟩ := by
  refine ⟨?_, by decide, by decide⟩
  intro s year_part doy_part full_year hlen hdig hyp hdp hfy h1 h2
  have hyp_lt : year_part < 100 := by
    have hall : ((pyStrip s).toList.take 2).all Char.isDigit = true := by
      exact List.all_eq_true.2 fun c hc =>
        (List.all_eq_true.1 hdig) c (List.mem_of_mem_take hc)
    have hv := digitsVal_lt _ hall
    have hlen2 : ((pyStrip s).toList.take 2).length = 2 := by
      rw [List.length_take]
      have h5 : (pyStrip s).toList.length = 5 := hlen
      omega
    rw [hlen2] at hv
    omega
  have hdoy366 : doy_part ≤ 366 := by
    have : daysInYear full_year ≤ 366 := by unfold daysInYear; split <;> omega
    omega
  show udc_from_str s = some ⟨full_year, doy_part⟩
  unfold udc_from_str
  dsimp only
  rw [if_pos ⟨hlen, hdig⟩, ← hyp, ← hdp, ← hfy, if_pos ⟨h1, hdoy366⟩]
  unfold strptime_yj
  have hfy_lo : 1900 ≤ full_year := by
    rw [hfy]; split <;> omega
  have hfy_hi : full_year ≤ 2030 := by
    rw [hfy]; split <;> omega
  dsimp only
  rw [if_pos h2, if_pos]
  constructor
  · exact Or.inl (by show 1677 < full_year; omega)
  · exact Or.inl (by show full_year < 2262; omega)

/-! ## Claim C4: (year, day-of-year) pairs -/

/-- **C4 (counterexample).** The claim that every `(year, doy)` with
`doy ∈ [1,366]` converts to a date with the input year and day fails:
`(2023, 366)` — 2023 is a common year — produces 2024-01-01 (year 2024,
day-of-year 1), not a date with year 2023 and day-of-year 366. -/
theorem c4_counterexample :
    unified_date_convert (some 2023) (some 366) none = some ⟨2024, 1⟩ ∧
    (⟨2024, 1⟩ : PDate) ≠ ⟨2023, 366⟩ := by
  constructor
  · decide
  · decide

/-- **C4 (amended).** For every year with four decimal digits whose dates are
representable as pandas timestamps (1678..2261) and every day-of-year that is a
valid ordinal day of that year (1..365, or 1..366 in a leap year),
`unified_date_convert` produces the date with exactly that year and
day-of-year. -/
theorem c4_amended_year_doy (y d : Nat) (h1 : 1678 ≤ y) (h2 : y ≤ 2261)
    (h3 : 1 ≤ d) (h4 : d ≤ daysInYear y) :
    unified_date_convert (some (y : Int)) (some (d : Int)) none = some ⟨y, d⟩ := by
  have hd366 : d ≤ 366 := by
    have : daysInYear y ≤ 366 := by unfold daysInYear; split <;> omega
    omega
  show udc_from_year_doy y d = some ⟨y, d⟩
  unfold udc_from_year_doy
  rw [if_pos (by constructor <;> omega : 1 ≤ (d : Int) ∧ (d : Int) ≤ 366)]
  rw [if_neg (by omega : ¬ (y : Int) < 0)]
  dsimp only
  simp only [Int.toNat_natCast]
  rw [if_neg (by omega : ¬ (10 ≤ y ∧ y ≤ 99)),
      if_neg (by omega : ¬ (100 ≤ y ∧ y ≤ 999)),
      if_pos (by omega : 1000 ≤ y ∧ y ≤ 9999)]
  unfold strptime_yj
  dsimp only
  rw [if_pos h4, if_pos]
  constructor
  · exact Or.inl (by show 1677 < y; omega)
  · exact Or.inl (by show y < 2262; omega)

/-- Witness for `c4_amended_year_doy`: year 2024 is a leap year, so day 366
is a valid ordinal day and converts to (2024, 366). -/
theorem c4_amended_year_doy_witness :
    (1678 ≤ 2024 ∧ 2024 ≤ 2261 ∧ 1 ≤ 366 ∧ 366 ≤ daysInYear 2024) ∧
    unified_date_convert (some (2024 : Int)) (some (366 : Int)) none = some ⟨2024, 366⟩ :=
  ⟨⟨by decide, by decide, by decide, by decide⟩,
   c4_amended_year_doy 2024 366 (by decide) (by decide) (by decide) (by decide)⟩

/-! ## Claim C5: out-of-range day-of-year and totality -/

/-- **C5.** With a `(year, doy)` input whose day-of-year is outside `[1, 366]`,
`unified_date_convert` returns the missing-date marker; and on every input
whatsoever it returns a value (the embedding is a total function into
`Option PDate`; the Python body is wrapped in a `try/except` that converts
every exception into `pd.NaT`). -/
theorem c5_out_of_range_doy :
    (∀ (y d : Int), (d < 1 ∨ 366 < d) →
      unified_date_convert (some y) (some d) none = none) ∧
    (∀ (year doy : Option Int) (ds : Option String),
      unified_date_convert year doy ds = none ∨
      ∃ p, unified_date_convert year doy ds = some p) := by
  constructor
  · intro y d hd
    show udc_from_year_doy y d = none
    unfold udc_from_year_doy
    rw [if_neg (by omega : ¬ (1 ≤ d ∧ d ≤ 366))]
  · intro year doy ds
    cases h : unified_date_convert year doy ds with
    | none => exact Or.inl rfl
    | some p => exact Or.inr ⟨p, rfl⟩

/-- Witness for `c5_out_of_range_doy`: day-of-year 400 gives a missing date. -/
theorem c5_out_of_range_doy_witness :
    ((400 : Int) < 1 ∨ (366 : Int) < 400) ∧
    unified_date_convert (some 1990) (some 400) none = none :=
  ⟨Or.inr (by decide), c5_out_of_range_doy.1 1990 400 (Or.inr (by decide))⟩

/-! ## Claim C10: date_str dominates -/

/-- **C10.** Whenever `date_str` is supplied, the result of
`unified_date_convert` depends only on it — the `year` and `doy` arguments are
ignored — and an invalid compact code yields a missing date even when a valid
`(year, doy)` pair is supplied alongside it. -/
theorem c10_date_str_dominates :
    (∀ (y1 d1 y2 d2 : Option Int) (s : String),
      unified_date_convert y1 d1 (some s) = unified_date_convert y2 d2 (some s)) ∧
    unified_date_convert (some 1991) (some 60) (some "abc") = none := by
  constructor
  · intro y1 d1 y2 d2 s
    cases y1 <;> cases d1 <;> cases y2 <;> cases d2 <;> rfl
  · decide

/-- Witness for the quantified part of `c1_compact_code_resolution`, at the
concrete compact code "91060". -/
theorem c1_compact_code_resolution_witness :
    ((pyStrip "91060").length = 5 ∧ (pyStrip "91060").toList.all Char.isDigit = true ∧
      1 ≤ digitsVal ((pyStrip "91060").toList.drop 2) ∧
      digitsVal ((pyStrip "91060").toList.drop 2) ≤ daysInYear 1991) ∧
    unified_date_convert none none (some "91060") = some ⟨1991, 60⟩ :=
  ⟨⟨by decide, by decide, by decide, by decide⟩,
   c1_compact_code_resolution.1 "91060" 91 60 1991 (by decide) (by decide) (by decide)
     (by decide) (by decide) (by decide) (by decide)⟩

/-! ## Metrics engine (src/models/metrics.py) -/

/-- `np.mean` of a list of rationals. -/
def listMean (l : List ℚ) : ℚ := l.sum / l.length

/-- `MetricsCalculator.d_stat` (src/models/metrics.py, lines 12-27):
Willmott's index of agreement of measured values `M` and simulated values `S`
(element-wise over equal-length arrays, modelled by `zip`); the Python function
returns `None` when the denominator is exactly zero. -/
def d_stat (measured simulated : List ℚ) : Option ℚ :=
  let M_mean := listMean measured
  let numerator := ((measured.zip simulated).map (fun p => (p.1 - p.2) ^ 2)).sum
  let denominator :=
    ((measured.zip simulated).map (fun p => (|p.1 - M_mean| + |p.2 - M_mean|) ^ 2)).sum
  if denominator ≠ 0 then some (1 - numerator / denominator) else none

/-- `mean((obs_values - sim_values) ** 2)`: the quantity under the square root
in `MetricsCalculator.rmse`. -/
def mseOf (obs_values sim_values : List ℚ) : ℚ :=
  listMean ((obs_values.zip sim_values).map (fun p => (p.1 - p.2) ^ 2))

/-- `MetricsCalculator.rmse` (lines 29-32). -/
noncomputable def rmse (obs_values sim_values : List ℚ) : ℝ :=
  Real.sqrt (mseOf obs_values sim_values)

/-- The dict returned by `MetricsCalculator.calculate_metrics`. -/
structure Metrics where
  TRT : String
  n : Nat
  RMSE : ℝ
  NRMSE : Option ℝ
  dStat : Option ℚ

/-- `MetricsCalculator.calculate_metrics` (lines 34-74).  Input cells are
`Option ℚ` (`none` models NaN); the two arrays are truncated to the shorter
length and restricted to index pairs where neither side is missing, exactly as
the numpy mask `~isnan(sim) & ~isnan(obs)` does. -/
noncomputable def calculate_metrics (sim_values obs_values : List (Option ℚ))
    (treatment_number : String) : Option Metrics :=
  if sim_values.length = 0 ∨ obs_values.length = 0 then none
  else
    let min_length := min sim_values.length obs_values.length
    let pairs := ((sim_values.take min_length).zip (obs_values.take min_length)).filterMap
      (fun p => match p with
        | (some s, some o) => some (s, o)
        | _ => none)
    if pairs.length = 0 then none
    else
      let simF := pairs.map Prod.fst
      let obsF := pairs.map Prod.snd
      let mean_obs := listMean obsF
      let rmse_value := rmse obsF simF
      let nrmse : Option ℝ :=
        if mean_obs ≠ 0 then some (rmse_value / (mean_obs : ℝ) * 100) else none
      some { TRT := treatment_number, n := pairs.length, RMSE := rmse_value,
             NRMSE := nrmse, dStat := d_stat obsF simF }

/-! ### List lemmas for the metrics proofs -/

theorem list_sum_nonneg_eq_zero_iff (l : List ℚ) (h : ∀ x ∈ l, 0 ≤ x) :
    l.sum = 0 ↔ ∀ x ∈ l, x = 0 := by
  induction l with
  | nil => simp
  | cons a l ih =>
      have ha : 0 ≤ a := h a (List.mem_cons_self a l)
      have hl : ∀ x ∈ l, 0 ≤ x := fun x hx => h x (List.mem_cons_of_mem a hx)
      have hsum : 0 ≤ l.sum := List.sum_nonneg hl
      constructor
      · intro h0
        simp only [List.sum_cons] at h0
        have haz : a = 0 := by linarith
        have hlz : l.sum = 0 := by linarith
        intro x hx
        rcases List.mem_cons.1 hx with rfl | hx'
        · exact haz
        · exact ((ih hl).1 hlz) x hx'
      · intro hall
        simp only [List.sum_cons]
        rw [hall a (List.mem_cons_self a l), (ih hl).2 fun x hx => hall x (List.mem_cons_of_mem a hx)]
        ring

theorem list_sum_const (l : List ℚ) (c : ℚ) (h : ∀ x ∈ l, x = c) :
    l.sum = c * l.length := by
  induction l with
  | nil => simp
  | cons a l ih =>
      have ha : a = c := h a (List.mem_cons_self a l)
      have := ih fun x hx => h x (List.mem_cons_of_mem a hx)
      simp only [List.sum_cons, List.length_cons, this, ha]
      push_cast
      ring

theorem listMean_const (l : List ℚ) (c : ℚ) (hne : l ≠ []) (h : ∀ x ∈ l, x = c) :
    listMean l = c := by
  have hlen : (l.length : ℚ) ≠ 0 := by
    simp only [ne_eq, Nat.cast_eq_zero, List.length_eq_zero]
    exact hne
  unfold listMean
  rw [list_sum_const l c h, mul_div_assoc, div_self hlen, mul_one]

theorem zip_self_eq_map (l : List ℚ) : l.zip l = l.map (fun x => (x, x)) := by
  induction l with
  | nil => rfl
  | cons a l ih => simp [List.zip_cons_cons, ih]

theorem filterMap_pairs_self (l : List ℚ) :
    ((l.map some).zip (l.map some)).filterMap
      (fun p : Option ℚ × Option ℚ => match p with
        | (some s, some o) => some (s, o)
        | _ => none) = l.map (fun x => (x, x)) := by
  induction l with
  | nil => rfl
  | cons a l ih => simp [List.zip_cons_cons, List.filterMap_cons, ih]

/-- Evaluation of `calculate_metrics` on a pair of identical fully-present
arrays: no pair is dropped, so the metrics are computed over the list itself. -/
theorem calculate_metrics_self (l : List ℚ) (t : String) (h : l ≠ []) :
    calculate_metrics (l.map some) (l.map some) t =
      some { TRT := t, n := l.length, RMSE := rmse l l,
             NRMSE := if listMean l ≠ 0 then some (rmse l l / ((listMean l : ℚ) : ℝ) * 100)
                      else none,
             dStat := d_stat l l } := by
  have hne : l.length ≠ 0 := fun h0 => h (List.length_eq_zero.1 h0)
  have htake : (List.map some l).take l.length = List.map some l := by
    have h0 := List.take_length (l := List.map some l)
    rwa [List.length_map] at h0
  unfold calculate_metrics
  rw [if_neg (by simp only [List.length_map]; omega)]
  simp only [List.length_map, min_self, htake, filterMap_pairs_self, List.map_map]
  rw [if_neg hne]
  have hfst : l.map (Prod.fst ∘ fun x : ℚ => (x, x)) = l := by
    rw [show (Prod.fst ∘ fun x : ℚ => (x, x)) = id from rfl, List.map_id]
  have hsnd : l.map (Prod.snd ∘ fun x : ℚ => (x, x)) = l := by
    rw [show (Prod.snd ∘ fun x : ℚ => (x, x)) = id from rfl, List.map_id]
  rw [hfst, hsnd]

theorem rmse_self_eq_zero (l : List ℚ) : rmse l l = 0 := by
  unfold rmse mseOf
  rw [zip_self_eq_map, List.map_map]
  have hz : ((fun p : ℚ × ℚ => (p.1 - p.2) ^ 2) ∘ fun x => (x, x)) = fun _ => (0 : ℚ) := by
    funext x; simp
  rw [hz]
  unfold listMean
  simp

theorem d_stat_numerator_self (l : List ℚ) :
    ((l.zip l).map (fun p => (p.1 - p.2) ^ 2)).sum = 0 := by
  rw [zip_self_eq_map, List.map_map]
  have hz : ((fun p : ℚ × ℚ => (p.1 - p.2) ^ 2) ∘ fun x => (x, x)) = fun _ => (0 : ℚ) := by
    funext x; simp
  rw [hz]
  simp

/-! ## Claim C3: metrics on identical arrays -/

/-- **C3 (counterexample).** The claim says identical non-missing arrays of any
length ≥ 1 give d-stat = 1; but on sim = obs = [5] the d-stat denominator
Σ(|sim − mean(obs)| + |obs − mean(obs)|)² is exactly zero, so the code reports
a null d-stat, not 1 (RMSE is still 0). -/
theorem c3_counterexample :
    (calculate_metrics [some (5 : ℚ)] [some 5] "1").map Metrics.dStat = some none ∧
    (some (none : Option ℚ)) ≠ some (some (1 : ℚ)) := by
  constructor
  · have h := calculate_metrics_self [(5 : ℚ)] "1" (by decide)
    rw [show ([some (5 : ℚ)] : List (Option ℚ)) = ([(5 : ℚ)].map some) from rfl, h]
    simp only [Option.map_some']
    congr 1
    unfold d_stat
    have hm : listMean [(5 : ℚ)] = 5 := by norm_num [listMean]
    dsimp only
    rw [hm]
    norm_num
  · simp

/-- **C3 (amended).** On identical non-missing arrays of length ≥ 1,
`calculate_metrics` reports RMSE = 0, and Willmott's d-stat = 1 exactly when
the common array is not constant; when all values are equal the d-stat
denominator is zero and the code reports a null d-stat instead. -/
theorem c3_agreement_amended (l : List ℚ) (t : String) (h : l ≠ []) :
    ∃ m : Metrics, calculate_metrics (l.map some) (l.map some) t = some m ∧
      m.RMSE = 0 ∧
      ((∀ x ∈ l, ∀ y ∈ l, x = y) → m.dStat = none) ∧
      ((∃ x ∈ l, ∃ y ∈ l, x ≠ y) → m.dStat = some 1) := by
  refine ⟨_, calculate_metrics_self l t h, rmse_self_eq_zero l, ?_, ?_⟩
  · -- constant array: the denominator is zero, so d_stat gives none
    intro hconst
    show d_stat l l = none
    obtain ⟨c, hc⟩ : ∃ c, ∀ x ∈ l, x = c := by
      obtain ⟨a, l', rfl⟩ := List.exists_cons_of_ne_nil h
      exact ⟨a, fun x hx => hconst x hx a (List.mem_cons_self a l')⟩
    have hmean : listMean l = c := listMean_const l c h hc
    unfold d_stat
    rw [if_neg]
    simp only [ne_eq, not_not]
    apply List.sum_eq_zero
    intro x hx
    obtain ⟨p, hp, rfl⟩ := List.mem_map.1 hx
    obtain ⟨hp1, hp2⟩ := List.of_mem_zip hp
    rw [hmean, hc p.1 hp1, hc p.2 hp2]
    simp
  · -- non-constant array: the denominator is nonzero, numerator is zero
    intro ⟨x, hx, y, hy, hxy⟩
    show d_stat l l = some 1
    unfold d_stat
    rw [if_pos]
    · rw [d_stat_numerator_self l]
      norm_num
    · -- denominator ≠ 0
      intro hD
      have hterms := (list_sum_nonneg_eq_zero_iff _ ?_).1 hD
      · have hall : ∀ a ∈ l, a = listMean l := by
          intro a ha
          have hmem : (|a - listMean l| + |a - listMean l|) ^ 2 ∈
              (l.zip l).map (fun p => (|p.1 - listMean l| + |p.2 - listMean l|) ^ 2) := by
            rw [zip_self_eq_map, List.map_map]
            exact List.mem_map.2 ⟨a, ha, rfl⟩
          have h0 := hterms _ hmem
          have habs : |a - listMean l| = 0 := by
            have := pow_eq_zero_iff (n := 2) (by norm_num) |>.1 h0
            have hnn : (0 : ℚ) ≤ |a - listMean l| := abs_nonneg _
            linarith
          have := abs_eq_zero.1 habs
          linarith
        exact hxy ((hall x hx).trans (hall y hy).symm)
      · intro z hz
        obtain ⟨p, _, rfl⟩ := List.mem_map.1 hz
        positivity

/-- Witness for `c3_agreement_amended` at the non-constant array [1, 2]. -/
theorem c3_agreement_amended_witness :
    (([1, 2] : List ℚ) ≠ []) ∧
    (∃ m : Metrics,
      calculate_metrics (([1, 2] : List ℚ).map some) (([1, 2] : List ℚ).map some) "T" = some m ∧
      m.RMSE = 0 ∧
      ((∀ x ∈ ([1, 2] : List ℚ), ∀ y ∈ ([1, 2] : List ℚ), x = y) → m.dStat = none) ∧
      ((∃ x ∈ ([1, 2] : List ℚ), ∃ y ∈ ([1, 2] : List ℚ), x ≠ y) → m.dStat = some 1)) :=
  ⟨by decide, c3_agreement_amended [1, 2] "T" (by decide)⟩

/-! ## Type standardizer (src/data/data_processing.py, standardize_dtypes) -/

inductive Dtype
  | int64
  | float64
  | text
deriving DecidableEq, Repr

/-- Per-cell numeric coercion `pd.to_numeric(·, errors="coerce")`, modelled for
plain decimal literals: optional sign, integer digits, optional '.' followed by
fraction digits, at least one digit overall, surrounding whitespace ignored.
Any other cell coerces to NaN (`none`).  A parsed value is a whole number
(float `is_integer()`) exactly when its reduced denominator is 1. -/
def parseNumeric (s : String) : Option ℚ :=
  let l := (pyStrip s).toList
  let sign : ℚ := match l with
    | '-' :: _ => -1
    | _ => 1
  let l' := match l with
    | '-' :: rest => rest
    | '+' :: rest => rest
    | _ => l
  let intPart := l'.takeWhile Char.isDigit
  let rest := l'.dropWhile Char.isDigit
  match rest with
  | [] => if intPart ≠ [] then some (sign * digitsVal intPart) else none
  | '.' :: fracPart =>
      if fracPart.all Char.isDigit = true ∧ (intPart ≠ [] ∨ fracPart ≠ []) then
        some (sign * ((digitsVal intPart : ℚ) + (digitsVal fracPart : ℚ) / (10 ^ fracPart.length)))
      else none
  | _ => none

/-- The per-column numeric branch of `standardize_dtypes` (lines 38-49):
coerce each cell, compute `nan_ratio = numeric_series.isna().mean()`, and when
`nan_ratio < 0.1` adopt `Int64` if every successfully parsed value
`is_integer()`, else `float64`; otherwise leave the column as text.  For an
empty column the mean is NaN and `NaN < 0.1` is false, so it stays text. -/
def columnDtype (col : List String) : Dtype :=
  let parsed := col.map parseNumeric
  let nanCount := (parsed.filter Option.isNone).length
  if col.length ≠ 0 ∧ (nanCount : ℚ) / (col.length : ℚ) < 1 / 10 then
    if (parsed.filterMap id).all (fun q => q.den == 1) then Dtype.int64 else Dtype.float64
  else Dtype.text

/-- `standardize_dtypes` (lines 19-51), restricted to one named column: the
reserved timestamp/treatment identifier columns are cast to `str`
unconditionally (text); every other column goes through numeric inference. -/
def standardize_dtypes_col (name : String) (col : List String) : Dtype :=
  if name ∈ (["YEAR", "DOY", "DATE", "TRT"] : List String) then Dtype.text
  else columnDtype col

/-! ### Evaluations of `parseNumeric` on the claim's example cells -/

theorem parseNumeric_one : parseNumeric "1" = some 1 := by
  simp [parseNumeric, pyStrip, digitsVal, digitVal]

theorem parseNumeric_two : parseNumeric "2" = some 2 := by
  simp [parseNumeric, pyStrip, digitsVal, digitVal]

theorem parseNumeric_three : parseNumeric "3" = some 3 := by
  simp [parseNumeric, pyStrip, digitsVal, digitVal]

theorem parseNumeric_one_point_five : parseNumeric "1.5" = some (3 / 2) := by
  simp [parseNumeric, pyStrip, digitsVal, digitVal]
  try norm_num

theorem parseNumeric_two_point_five : parseNumeric "2.5" = some (5 / 2) := by
  simp [parseNumeric, pyStrip, digitsVal, digitVal]
  try norm_num

theorem parseNumeric_abc : parseNumeric "abc" = none := by
  simp [parseNumeric, pyStrip, digitsVal, digitVal]

theorem parseNumeric_def : parseNumeric "def" = none := by
  simp [parseNumeric, pyStrip, digitsVal, digitVal]

theorem parseNumeric_ghi : parseNumeric "ghi" = none := by
  simp [parseNumeric, pyStrip, digitsVal, digitVal]

theorem parseNumeric_jkl : parseNumeric "jkl" = none := by
  simp [parseNumeric, pyStrip, digitsVal, digitVal]

theorem parseNumeric_mno : parseNumeric "mno" = none := by
  simp [parseNumeric, pyStrip, digitsVal, digitVal]

/-! ## Claim C6: the 10% numeric-coercion threshold -/

/-- **C6.** For a non-reserved column: if strictly fewer than 10% of the values
fail numeric coercion the column becomes numeric — Int64 when every parsed
value is whole, else float64 — and if 10% or more fail it stays text; with the
claim's three examples evaluated. -/
theorem c6_dtype_threshold :
    (∀ (name : String) (col : List String),
      name ∉ (["YEAR", "DOY", "DATE", "TRT"] : List String) →
      (10 * ((col.map parseNumeric).filter Option.isNone).length < col.length →
        standardize_dtypes_col name col =
          (if ((col.map parseNumeric).filterMap id).all (fun q => q.den == 1)
           then Dtype.int64 else Dtype.float64)) ∧
      (col.length ≤ 10 * ((col.map parseNumeric).filter Option.isNone).length →
        standardize_dtypes_col name col = Dtype.text)) ∧
    standardize_dtypes_col "A" ["1", "2", "3"] = Dtype.int64 ∧
    standardize_dtypes_col "A" ["1.5", "2.5"] = Dtype.float64 ∧
    standardize_dtypes_col "A" ["1", "2", "abc", "def", "ghi", "jkl", "mno"] = Dtype.text := by
  refine ⟨?_, ?_, ?_, ?_⟩
  · intro name col hname
    constructor
    · intro hlt
      have hne0 : col.length ≠ 0 := by omega
      have hcond : col.length ≠ 0 ∧
          ((((col.map parseNumeric).filter Option.isNone).length : ℚ) / (col.length : ℚ) < 1 / 10) := by
        refine ⟨hne0, ?_⟩
        rw [div_lt_div_iff₀ (by exact_mod_cast Nat.pos_of_ne_zero hne0) (by norm_num)]
        have h10 : ((col.map parseNumeric).filter Option.isNone).length * 10 < 1 * col.length := by
          omega
        exact_mod_cast h10
      unfold standardize_dtypes_col
      rw [if_neg hname]
      unfold columnDtype
      rw [if_pos hcond]
    · intro hge
      have hncond : ¬ (col.length ≠ 0 ∧
          ((((col.map parseNumeric).filter Option.isNone).length : ℚ) / (col.length : ℚ) < 1 / 10)) := by
        rintro ⟨hne0, hratio⟩
        rw [div_lt_div_iff₀ (by exact_mod_cast Nat.pos_of_ne_zero hne0) (by norm_num)] at hratio
        have h10 : ((col.map parseNumeric).filter Option.isNone).length * 10 < 1 * col.length := by
          exact_mod_cast hratio
        omega
      unfold standardize_dtypes_col
      rw [if_neg hname]
      unfold columnDtype
      rw [if_neg hncond]
  · simp [standardize_dtypes_col, columnDtype, parseNumeric_one, parseNumeric_two,
      parseNumeric_three]
    try norm_num
  · simp [standardize_dtypes_col, columnDtype, parseNumeric_one_point_five,
      parseNumeric_two_point_five]
    try norm_num
  · simp [standardize_dtypes_col, columnDtype, parseNumeric_one, parseNumeric_two,
      parseNumeric_abc, parseNumeric_def, parseNumeric_ghi, parseNumeric_jkl, parseNumeric_mno]
    try norm_num

/-- Witness for `c6_dtype_threshold` at the column ["1","2","3"]. -/
theorem c6_dtype_threshold_witness :
    ("A" ∉ (["YEAR", "DOY", "DATE", "TRT"] : List String)) ∧
    (10 * (((["1", "2", "3"] : List String).map parseNumeric).filter Option.isNone).length <
      (["1", "2", "3"] : List String).length) ∧
    standardize_dtypes_col "A" ["1", "2", "3"] =
      (if (((["1", "2", "3"] : List String).map parseNumeric).filterMap id).all
          (fun q => q.den == 1) then Dtype.int64 else Dtype.float64) :=
  ⟨by decide,
   by simp [parseNumeric_one, parseNumeric_two, parseNumeric_three],
   (c6_dtype_threshold.1 "A" ["1", "2", "3"] (by decide)).1
     (by simp [parseNumeric_one, parseNumeric_two, parseNumeric_three])⟩

/-! ## Variable pairing (src/data/data_processing.py, get_evaluate_variable_pairs) -/

/-- An EVALUATE.OUT frame for the pairing code: named columns of optional
numerics (`none` = missing), positionally aligned rows, unique column names
(a DataFrame invariant). -/
abbrev EvalFrame := List (String × List (Option ℚ))

/-- `data[name]`: the column of that name (first match; `[]` if absent). -/
def lookupCol (data : EvalFrame) (name : String) : List (Option ℚ) :=
  ((data.find? (fun p => p.1 == name)).map Prod.snd).getD []

/-- `data[[col, measured_var]].dropna()`: the aligned rows where neither side
is missing. -/
def alignedDropna (a b : List (Option ℚ)) : List (ℚ × ℚ) :=
  (a.zip b).filterMap (fun p => match p with
    | (some x, some y) => some (x, y)
    | _ => none)

/-- Python `col[:-1]`. -/
def pyDropLast (s : String) : String := ⟨s.toList.dropLast⟩

/-- Python `col.endswith(c)` for a single character. -/
def pyEndsWithChar (s : String) (c : Char) : Bool := s.toList.getLast? == some c

/-- Lexicographic order on the returned (display, sim, meas) triples: Python
`sorted()` on tuples of strings. -/
def tripleLE (a b : String × String × String) : Prop :=
  a.1 < b.1 ∨ (a.1 = b.1 ∧ (a.2.1 < b.2.1 ∨ (a.2.1 = b.2.1 ∧ a.2.2 ≤ b.2.2)))

instance : DecidableRel tripleLE := fun a b => by
  unfold tripleLE; infer_instance

/-- The loop body of `get_evaluate_variable_pairs` for one candidate column
name: `none` when the column is skipped, `some` triple when a pair is kept.
`label` stands for the display-name resolution
(`get_variable_info`/`parse_data_cde`, which reads the external DATA.CDE
dictionary file and falls back to the base name); it does not affect which
pairs are kept. -/
def candidatePair (label : String → String) (data : EvalFrame) (col : String) :
    Option (String × String × String) :=
  if col ∈ (["RUN", "EXCODE", "TRNO", "RN", "CR"] : List String) then none
  else if pyEndsWithChar col 'S' then
    let base_name := pyDropLast col
    let measured_var := base_name ++ "M"
    if measured_var ∈ data.map Prod.fst then
      let simVals := lookupCol data col
      let measVals := lookupCol data measured_var
      if simVals.all Option.isNone || measVals.all Option.isNone then none
      else
        let valid := alignedDropna simVals measVals
        if valid.isEmpty then none
        else if valid.all (fun p => p.1 == p.2) then none
        else some (label base_name, col, measured_var)
    else none
  else none

/-- `get_evaluate_variable_pairs` (lines 182-229): scan the column names,
keep the surviving (display, simulated, measured) triples, return them
sorted (Python `sorted(pairs)` on string tuples). -/
def get_evaluate_variable_pairs (label : String → String) (data : EvalFrame) :
    List (String × String × String) :=
  List.insertionSort tripleLE ((data.map Prod.fst).filterMap (candidatePair label data))

theorem pyDropLast_append_S (s : String) : pyDropLast (s ++ "S") = s := by
  unfold pyDropLast
  have h : (s ++ "S").toList = s.toList ++ ['S'] := by
    show (s ++ "S").data = s.data ++ ['S']
    simp [String.append]
  rw [h, List.dropLast_concat]
  show String.mk s.data = s
  cases s
  rfl

/-! ## Claim C7: value-identical pairs are excluded -/

/-- **C7.** A candidate (nameS, nameM) pair is excluded from the returned list
whenever, after dropping rows with either side missing, every remaining aligned
pair of values is exactly equal: no triple with that simulated/measured column
pair appears in the output. -/
theorem c7_identical_pair_excluded :
    ∀ (label : String → String) (data : EvalFrame) (name : String),
      (∀ p ∈ alignedDropna (lookupCol data (name ++ "S")) (lookupCol data (name ++ "M")),
        p.1 = p.2) →
      ∀ d, (d, name ++ "S", name ++ "M") ∉ get_evaluate_variable_pairs label data := by
  intro label data name hall d hmem
  unfold get_evaluate_variable_pairs at hmem
  rw [List.mem_insertionSort] at hmem
  obtain ⟨col, hcol, hres⟩ := List.mem_filterMap.1 hmem
  unfold candidatePair at hres
  by_cases h1 : col ∈ (["RUN", "EXCODE", "TRNO", "RN", "CR"] : List String)
  · rw [if_pos h1] at hres; exact Option.noConfusion hres
  rw [if_neg h1] at hres
  by_cases h2 : pyEndsWithChar col 'S' = true
  case neg => rw [if_neg h2] at hres; exact Option.noConfusion hres
  rw [if_pos h2] at hres
  dsimp only at hres
  by_cases h3 : pyDropLast col ++ "M" ∈ data.map Prod.fst
  case neg => rw [if_neg h3] at hres; exact Option.noConfusion hres
  rw [if_pos h3] at hres
  by_cases h4 : ((lookupCol data col).all Option.isNone
      || (lookupCol data (pyDropLast col ++ "M")).all Option.isNone) = true
  · rw [if_pos h4] at hres; exact Option.noConfusion hres
  rw [if_neg h4] at hres
  by_cases h5 : (alignedDropna (lookupCol data col)
      (lookupCol data (pyDropLast col ++ "M"))).isEmpty = true
  · rw [if_pos h5] at hres; exact Option.noConfusion hres
  rw [if_neg h5] at hres
  by_cases h6 : (alignedDropna (lookupCol data col)
      (lookupCol data (pyDropLast col ++ "M"))).all (fun p => p.1 == p.2) = true
  · rw [if_pos h6] at hres; exact Option.noConfusion hres
  rw [if_neg h6] at hres
  simp only [Option.some.injEq, Prod.mk.injEq] at hres
  obtain ⟨-, hcoleq, -⟩ := hres
  apply h6
  rw [hcoleq, pyDropLast_append_S]
  exact List.all_eq_true.2 fun p hp => beq_iff_eq.2 (hall p hp)

/-- Witness for `c7_identical_pair_excluded`: CWADS = CWADM = [100, 200, 300]
yields no pair for base "CWAD". -/
theorem c7_identical_pair_excluded_witness :
    (∀ p ∈ alignedDropna
        (lookupCol [("CWADS", [some (100 : ℚ), some 200, some 300]),
                    ("CWADM", [some 100, some 200, some 300])] ("CWAD" ++ "S"))
        (lookupCol [("CWADS", [some (100 : ℚ), some 200, some 300]),
                    ("CWADM", [some 100, some 200, some 300])] ("CWAD" ++ "M")),
      p.1 = p.2) ∧
    ("CWAD", "CWAD" ++ "S", "CWAD" ++ "M") ∉
      get_evaluate_variable_pairs (fun n => n)
        [("CWADS", [some (100 : ℚ), some 200, some 300]),
         ("CWADM", [some 100, some 200, some 300])] :=
  ⟨by decide,
   c7_identical_pair_excluded (fun n => n)
     [("CWADS", [some (100 : ℚ), some 200, some 300]),
      ("CWADM", [some 100, some 200, some 300])] "CWAD" (by decide) "CWAD"⟩

/-! ## DSSAT output file reading (src/data/dssat_io.py, read_file) -/

/-- Python `str.upper()` (ASCII). -/
def pyUpper (s : String) : String := ⟨s.toList.map Char.toUpper⟩

/-- Python `s.startswith(pre)`. -/
def pyStartsWith (s pre : String) : Bool := pre.toList.isPrefixOf s.toList

/-- Python `str.split()` with no argument: the maximal runs of
non-whitespace characters, in order. -/
def pySplitGo : List Char → List Char → List String
  | [], acc => if acc.isEmpty then [] else [⟨acc.reverse⟩]
  | c :: cs, acc =>
      if c.isWhitespace then
        if acc.isEmpty then pySplitGo cs [] else ⟨acc.reverse⟩ :: pySplitGo cs []
      else pySplitGo cs (c :: acc)

def pySplit (s : String) : List String := pySplitGo s.toList []

/-- Python `line.lstrip("@")`. -/
def pyLstripAt (s : String) : String := ⟨s.toList.dropWhile (· == '@')⟩

/-- `line.strip().upper().startswith("TREATMENT")`: the treatment-marker test
used by `read_file` (line 196) and `process_treatment_block` (line 254). -/
def isTreatmentLine (line : String) : Bool :=
  pyStartsWith (pyUpper (pyStrip line)) "TREATMENT"

/-- A parsed data row of a treatment block: header names associated with the
row's tokens in header order, `none` for the cells pandas pads with NaN when a
row has fewer tokens than the header; the TRT tag is added by column
assignment (`setCell`). -/
abbrev Row := List (String × Option String)

abbrev RawFrame := List Row

/-- `row[key]` as stored: `none` when the column is absent from the row. -/
def lookupCell (r : Row) (key : String) : Option (Option String) :=
  (r.find? (fun p => p.1 == key)).map Prod.snd

/-- `df[key] = val` on one row: overwrite the column when present, else
append it. -/
def setCell (r : Row) (key : String) (val : Option String) : Row :=
  if r.any (fun p => p.1 == key) then
    r.map (fun p => if p.1 == key then (p.1, val) else p)
  else r ++ [(key, val)]

/-- Index of the first line starting with `"@"` (no stripping — line 237). -/
def headerIndexOf (lines : List String) : Option Nat :=
  (List.range lines.length).find? (fun i => pyStartsWith (lines.getD i "") "@")

/-- `lines[header_index].lstrip("@").strip().split()` of a block (line 241). -/
def blockHeaderTokens (lines : List String) : List String :=
  match headerIndexOf lines with
  | some hi => pySplit (pyStrip (pyLstripAt (lines.getD hi "")))
  | none => []

/-- The treatment tag of a block: second whitespace token of the first
treatment-marker line (lines 254-260); `none` when there is no marker line or
the marker line has no second token (the caught `IndexError`). -/
def firstTreatmentToken (lines : List String) : Option String :=
  (lines.find? isTreatmentLine).bind (fun tline => (pySplit tline).get? 1)

/-- `process_treatment_block` (src/data/dssat_io.py, lines 234-266): find the
block's own header line, tokenize the non-blank non-`*` lines after it, build
the rows, and tag every row with the block's treatment number when one is
found.  `pd.DataFrame(data_lines, columns=headers)` derives one column per
token of the widest row and raises unless that count equals the header count
("N columns passed, passed data had M columns" — the exception is caught at
lines 264-266, so the block yields `none`); rows narrower than the widest are
padded with NaN. -/
def process_treatment_block (lines : List String) : Option RawFrame :=
  match headerIndexOf lines with
  | none => none
  | some hi =>
      let headers := pySplit (pyStrip (pyLstripAt (lines.getD hi "")))
      let data_lines := ((lines.drop (hi + 1)).filter
          (fun l => !(pyStrip l).isEmpty && !(pyStartsWith l "*"))).map pySplit
      if data_lines.isEmpty then none
      else if data_lines.foldl (fun m r => max m r.length) 0 ≠ headers.length then none
      else
        let df : RawFrame := data_lines.map (fun toks =>
          headers.zip (toks.map some ++ List.replicate (headers.length - toks.length) none))
        match firstTreatmentToken lines with
        | some trt => some (df.map (fun r => setCell r "TRT" (some trt)))
        | none => some df

/-- Indices of the treatment-marker lines (line 196). -/
def treatmentIndices (lines : List String) : List Nat :=
  (List.range lines.length).filter (fun i => isTreatmentLine (lines.getD i ""))

/-- `read_file` (src/data/dssat_io.py, lines 171-232), from the read lines to
the concatenated frame.  With treatment markers present, each slice from one
marker to the next (the last running to end of file) is processed
independently and the surviving frames are concatenated with a fresh index
(`pd.concat(..., ignore_index=True)` = list append of the rows).  The
subsequent post-processing (dropping all-NaN columns, `standardize_dtypes`
— which casts the TRT column with `astype(str)`, the identity on these
string tags — and deriving a DATE column from YEAR/DOY) neither changes the
TRT tags nor the row order, so the combined frame is modelled at the
concatenation stage. -/
def read_file (lines : List String) : Option RawFrame :=
  let tis := treatmentIndices lines
  if tis.isEmpty then
    process_treatment_block lines
  else
    let dfs := ((List.range tis.length).map (fun idx =>
        let start := tis.getD idx 0
        let stop := tis.getD (idx + 1) lines.length
        (lines.drop start).take (stop - start))).filterMap process_treatment_block
    if dfs.isEmpty then none else some dfs.flatten

theorem find_overwrite (r : Row) (k : String) (v : Option String)
    (h : r.any (fun p => p.1 == k) = true) :
    ((r.map (fun p => if p.1 == k then (p.1, v) else p)).find?
      (fun p => p.1 == k)).map Prod.snd = some v := by
  induction r with
  | nil => simp at h
  | cons p r ih =>
      simp only [List.any_cons, Bool.or_eq_true] at h
      by_cases hp : (p.1 == k) = true
      · simp only [List.map_cons]
        rw [if_pos hp, List.find?_cons_of_pos _ (by simpa using hp)]
        rfl
      · have hr : r.any (fun p => p.1 == k) = true := by
          rcases h with h | h
          · exact absurd h hp
          · exact h
        simp only [List.map_cons]
        rw [if_neg hp, List.find?_cons_of_neg _ (by simp [hp])]
        exact ih hr

theorem find_append_missing (r : Row) (k : String) (v : Option String)
    (h : r.any (fun p => p.1 == k) = false) :
    (((r ++ [(k, v)]).find? (fun p => p.1 == k)).map Prod.snd) = some v := by
  induction r with
  | nil => simp [List.find?_cons]
  | cons p r ih =>
      simp only [List.any_cons, Bool.or_eq_false_iff] at h
      simp only [List.cons_append]
      rw [List.find?_cons_of_neg _ (by simp [h.1])]
      exact ih h.2

theorem lookupCell_setCell (r : Row) (k : String) (v : Option String) :
    lookupCell (setCell r k v) k = some v := by
  unfold lookupCell setCell
  by_cases h : r.any (fun p => p.1 == k) = true
  · rw [if_pos h]
    exact find_overwrite r k v h
  · rw [if_neg h]
    exact find_append_missing r k v (by revert h; cases r.any (fun p => p.1 == k) <;> simp)

theorem setCell_keys (r : Row) (k : String) (v : Option String) :
    ∀ kv ∈ setCell r k v, (∃ kv' ∈ r, kv.1 = kv'.1) ∨ kv.1 = k := by
  intro kv hkv
  unfold setCell at hkv
  by_cases h : r.any (fun p => p.1 == k) = true
  · rw [if_pos h] at hkv
    obtain ⟨p, hp, heq⟩ := List.mem_map.1 hkv
    by_cases hpk : (p.1 == k) = true
    · rw [if_pos hpk] at heq
      exact Or.inl ⟨p, hp, by rw [← heq]⟩
    · rw [if_neg hpk] at heq
      exact Or.inl ⟨p, hp, by rw [← heq]⟩
  · rw [if_neg h] at hkv
    rcases List.mem_append.1 hkv with hkv | hkv
    · exact Or.inl ⟨kv, hkv, rfl⟩
    · simp only [List.mem_singleton] at hkv
      exact Or.inr (by rw [hkv])

/-- Rows of a successfully processed treatment block whose marker carries a
treatment token are all tagged with that token, and every column of every row
comes from the block's own header line (or is the TRT tag). -/
theorem process_block_rows (b : List String) (df : RawFrame) (t : String)
    (hdf : process_treatment_block b = some df)
    (ht : firstTreatmentToken b = some t) :
    (∀ r ∈ df, lookupCell r "TRT" = some (some t)) ∧
    (∀ r ∈ df, ∀ kv ∈ r, kv.1 ∈ blockHeaderTokens b ∨ kv.1 = "TRT") := by
  unfold process_treatment_block at hdf
  cases hhi : headerIndexOf b with
  | none => rw [hhi] at hdf; exact Option.noConfusion hdf
  | some hi =>
      rw [hhi] at hdf
      dsimp only at hdf
      by_cases he : (((b.drop (hi + 1)).filter
          (fun l => !(pyStrip l).isEmpty && !(pyStartsWith l "*"))).map pySplit).isEmpty = true
      · rw [if_pos he] at hdf; exact Option.noConfusion hdf
      rw [if_neg he] at hdf
      by_cases hov : (((b.drop (hi + 1)).filter
          (fun l => !(pyStrip l).isEmpty && !(pyStartsWith l "*"))).map pySplit).foldl
          (fun m r => max m r.length) 0 ≠
          (pySplit (pyStrip (pyLstripAt (b.getD hi "")))).length
      · rw [if_pos hov] at hdf; exact Option.noConfusion hdf
      rw [if_neg hov] at hdf
      rw [ht] at hdf
      simp only [Option.some.injEq] at hdf
      subst hdf
      constructor
      · intro r hr
        obtain ⟨r0, _, rfl⟩ := List.mem_map.1 hr
        exact lookupCell_setCell r0 "TRT" (some t)
      · intro r hr kv hkv
        obtain ⟨r0, hr0, rfl⟩ := List.mem_map.1 hr
        rcases setCell_keys r0 "TRT" (some t) kv hkv with ⟨kv', hkv', heq⟩ | heq
        · left
          obtain ⟨toks, _, rfl⟩ := List.mem_map.1 hr0
          obtain ⟨x, y⟩ := kv'
          have hx := (List.of_mem_zip hkv').1
          rw [heq]
          unfold blockHeaderTokens
          rw [hhi]
          exact hx
        · exact Or.inr heq

/-! ## Claim C2: two treatment blocks parse independently -/

/-- **C2.** For a file whose lines contain exactly two treatment markers, each
block (from its marker up to the next marker / end of file) is parsed
independently: `read_file` returns the two block frames concatenated in order,
every row of a block is tagged with that block's own treatment token, the two
distinct tokens tag exactly the rows of their own blocks, and every column of
a block's rows comes from the `@` header line inside that block's own slice
(or is the TRT tag itself). -/
theorem c2_two_treatment_blocks :
    ∀ (lines : List String) (i1 i2 : Nat) (df1 df2 : RawFrame) (t1 t2 : String),
      treatmentIndices lines = [i1, i2] →
      process_treatment_block ((lines.drop i1).take (i2 - i1)) = some df1 →
      process_treatment_block ((lines.drop i2).take (lines.length - i2)) = some df2 →
      firstTreatmentToken ((lines.drop i1).take (i2 - i1)) = some t1 →
      firstTreatmentToken ((lines.drop i2).take (lines.length - i2)) = some t2 →
      t1 ≠ t2 →
      read_file lines = some (df1 ++ df2) ∧
      (∀ r ∈ df1, lookupCell r "TRT" = some (some t1)) ∧
      (∀ r ∈ df2, lookupCell r "TRT" = some (some t2)) ∧
      (∀ r ∈ df1, lookupCell r "TRT" ≠ some (some t2)) ∧
      (∀ r ∈ df2, lookupCell r "TRT" ≠ some (some t1)) ∧
      (∀ r ∈ df1, ∀ kv ∈ r,
        kv.1 ∈ blockHeaderTokens ((lines.drop i1).take (i2 - i1)) ∨ kv.1 = "TRT") ∧
      (∀ r ∈ df2, ∀ kv ∈ r,
        kv.1 ∈ blockHeaderTokens ((lines.drop i2).take (lines.length - i2)) ∨ kv.1 = "TRT") := by
  intro lines i1 i2 df1 df2 t1 t2 hti h1 h2 ht1 ht2 hne
  obtain ⟨htag1, hkeys1⟩ := process_block_rows _ df1 t1 h1 ht1
  obtain ⟨htag2, hkeys2⟩ := process_block_rows _ df2 t2 h2 ht2
  refine ⟨?_, htag1, htag2, ?_, ?_, hkeys1, hkeys2⟩
  · unfold read_file
    simp only [hti]
    rw [if_neg (by simp)]
    have hslices : (List.range ([i1, i2] : List Nat).length).map (fun idx =>
        (lines.drop (([i1, i2] : List Nat).getD idx 0)).take
          ((([i1, i2] : List Nat).getD (idx + 1) lines.length) -
            ([i1, i2] : List Nat).getD idx 0)) =
        [(lines.drop i1).take (i2 - i1), (lines.drop i2).take (lines.length - i2)] := rfl
    rw [hslices]
    rw [show ([(lines.drop i1).take (i2 - i1),
        (lines.drop i2).take (lines.length - i2)]).filterMap process_treatment_block =
        [df1, df2] from by simp only [List.filterMap_cons, h1, h2, List.filterMap_nil]]
    simp
  · intro r hr hbad
    rw [htag1 r hr] at hbad
    simp only [Option.some.injEq] at hbad
    exact hne hbad
  · intro r hr hbad
    rw [htag2 r hr] at hbad
    simp only [Option.some.injEq] at hbad
    exact hne hbad.symm

/-- Witness for `c2_two_treatment_blocks`: a file with two TREATMENT blocks,
one data row each, tokens "1" and "2". -/
theorem c2_two_treatment_blocks_witness :
    (treatmentIndices ["TREATMENT 1", "@A B", "1 2", "TREATMENT 2", "@A B", "3 4"] = [0, 3] ∧
     process_treatment_block
       (((["TREATMENT 1", "@A B", "1 2", "TREATMENT 2", "@A B", "3 4"] : List String).drop 0).take
         (3 - 0)) = some [[("A", some "1"), ("B", some "2"), ("TRT", some "1")]] ∧
     process_treatment_block
       (((["TREATMENT 1", "@A B", "1 2", "TREATMENT 2", "@A B", "3 4"] : List String).drop 3).take
         ((["TREATMENT 1", "@A B", "1 2", "TREATMENT 2", "@A B", "3 4"] : List String).length - 3)) =
       some [[("A", some "3"), ("B", some "4"), ("TRT", some "2")]] ∧
     ("1" : String) ≠ "2") ∧
    (read_file ["TREATMENT 1", "@A B", "1 2", "TREATMENT 2", "@A B", "3 4"] =
      some ([[("A", some "1"), ("B", some "2"), ("TRT", some "1")]] ++
            [[("A", some "3"), ("B", some "4"), ("TRT", some "2")]]) ∧
     (∀ r ∈ ([[("A", some "1"), ("B", some "2"), ("TRT", some "1")]] : RawFrame),
        lookupCell r "TRT" = some (some "1")) ∧
     (∀ r ∈ ([[("A", some "3"), ("B", some "4"), ("TRT", some "2")]] : RawFrame),
        lookupCell r "TRT" = some (some "2")) ∧
     (∀ r ∈ ([[("A", some "1"), ("B", some "2"), ("TRT", some "1")]] : RawFrame),
        lookupCell r "TRT" ≠ some (some "2")) ∧
     (∀ r ∈ ([[("A", some "3"), ("B", some "4"), ("TRT", some "2")]] : RawFrame),
        lookupCell r "TRT" ≠ some (some "1")) ∧
     (∀ r ∈ ([[("A", some "1"), ("B", some "2"), ("TRT", some "1")]] : RawFrame), ∀ kv ∈ r,
        kv.1 ∈ blockHeaderTokens
          (((["TREATMENT 1", "@A B", "1 2", "TREATMENT 2", "@A B", "3 4"] : List String).drop 0).take
            (3 - 0)) ∨ kv.1 = "TRT") ∧
     (∀ r ∈ ([[("A", some "3"), ("B", some "4"), ("TRT", some "2")]] : RawFrame), ∀ kv ∈ r,
        kv.1 ∈ blockHeaderTokens
          (((["TREATMENT 1", "@A B", "1 2", "TREATMENT 2", "@A B", "3 4"] : List String).drop 3).take
            ((["TREATMENT 1", "@A B", "1 2", "TREATMENT 2", "@A B", "3 4"] : List String).length - 3)) ∨
        kv.1 = "TRT")) :=
  ⟨⟨by decide, by decide, by decide, by decide⟩,
   c2_two_treatment_blocks ["TREATMENT 1", "@A B", "1 2", "TREATMENT 2", "@A B", "3 4"] 0 3
     [[("A", some "1"), ("B", some "2"), ("TRT", some "1")]]
     [[("A", some "3"), ("B", some "4"), ("TRT", some "2")]] "1" "2"
     (by decide) (by decide) (by decide) (by decide) (by decide) (by decide)⟩

/-! ## Schema reconciliation (src/data/data_processing.py, handle_missing_xvar) -/

/-- A cell of an observed/simulated frame: missing (NaN/NaT), numeric, text,
or datetime. -/
inductive Cell
  | na
  | num (q : ℚ)
  | str (s : String)
  | dt (d : PDate)
deriving DecidableEq, Repr

abbrev Col := List Cell

/-- A pandas DataFrame for the reconciliation code: named columns of cells,
positionally aligned rows. -/
abbrev Frame := List (String × Col)

def hasCol (f : Frame) (name : String) : Bool := f.any (fun p => p.1 == name)

def getCol (f : Frame) (name : String) : Col :=
  ((f.find? (fun p => p.1 == name)).map Prod.snd).getD []

/-- `df[name] = col`: overwrite the column when present, else append it. -/
def setColF (f : Frame) (name : String) (c : Col) : Frame :=
  if hasCol f name then f.map (fun p => if p.1 == name then (p.1, c) else p)
  else f ++ [(name, c)]

def nRows (f : Frame) : Nat := (f.head?.map (fun p => p.2.length)).getD 0

/-- `df is None or df.empty` (no columns, or no rows). -/
def frameEmpty (f : Frame) : Bool := f.isEmpty || nRows f == 0

def monthDays (leap : Bool) : List Nat :=
  [31, if leap then 29 else 28, 31, 30, 31, 30, 31, 31, 30, 31, 30, 31]

/-- Ordinal day-of-year of a calendar (year, month, day). -/
def doyOfYMD (y m d : Nat) : Nat := ((monthDays (isLeap y)).take (m - 1)).sum + d

/-- ISO `"YYYY-MM-DD"` date strings — the repository's serialized date format
(`read_observed_data` renders DATE with `strftime("%Y-%m-%d")`). -/
def parseISODate (s : String) : Option PDate :=
  match s.toList with
  | [a, b, c, d, '-', e, f, '-', g, h] =>
      if ([a, b, c, d, e, f, g, h].all Char.isDigit) = true then
        let y := digitsVal [a, b, c, d]
        let m := digitsVal [e, f]
        let dd := digitsVal [g, h]
        if 1 ≤ m ∧ m ≤ 12 ∧ 1 ≤ dd ∧ dd ≤ (monthDays (isLeap y)).getD (m - 1) 0 then
          some ⟨y, doyOfYMD y m dd⟩
        else none
      else none
  | _ => none

/-- `pd.to_datetime(column, errors="coerce")` cell-wise: datetimes pass
through, missing stays missing, ISO date strings parse, any other cell becomes
NaT.  (Numeric epoch interpretation is outside the frames this code sees.) -/
def toDatetimeCell : Cell → Cell
  | Cell.dt d => Cell.dt d
  | Cell.str s =>
      match parseISODate s with
      | some p => Cell.dt p
      | none => Cell.na
  | _ => Cell.na

/-- Lines 90-93: coerce a frame's DATE column to datetime in place, when
present.  Applied to the observed copy (lines 90-91) and — this is the side
effect on the caller — to the `sim_data` argument itself (lines 92-93). -/
def coerceDATE (f : Frame) : Frame :=
  if hasCol f "DATE" then setColF f "DATE" ((getCol f "DATE").map toDatetimeCell) else f

/-- `datetime.date.toordinal` of a (year, day-of-year) pair (proleptic
Gregorian, 0001-01-01 = day 1). -/
def pdOrdinal (p : PDate) : Nat :=
  365 * (p.year - 1) + (p.year - 1) / 4 - (p.year - 1) / 100 + (p.year - 1) / 400 + p.doy

/-- `pd.to_datetime(col).min()`: earliest datetime of the column, skipping
missing values; NaT when there is none. -/
def colMinDate (c : Col) : Cell :=
  let ds := c.filterMap (fun x => match x with | Cell.dt d => some d | _ => none)
  match ds with
  | [] => Cell.na
  | d :: rest => Cell.dt (rest.foldl (fun a x => if pdOrdinal x < pdOrdinal a then x else a) d)

/-- `fillna(method="ffill")` on a column: missing cells take the previous
non-missing value; leading missing cells stay missing. -/
def ffillGo : Col → Cell → Col
  | [], _ => []
  | Cell.na :: rest, prev => prev :: ffillGo rest prev
  | v :: rest, _ => v :: ffillGo rest v

def ffillCol (c : Col) : Col := ffillGo c Cell.na

/-- pandas `.unique()`: first-occurrence-order deduplication. -/
def uniqueList {α : Type} [BEq α] (l : List α) : List α :=
  l.foldl (fun acc x => if acc.contains x then acc else acc ++ [x]) []

/-- `range(len(obs_data))` as a numeric column (line 130). -/
def rangeCol (n : Nat) : Col := (List.range n).map (fun i => Cell.num i)

/-- Assign the column and forward-fill it (lines 128-132: the assignment of
the branch reaching this point, then `fillna(method="ffill", inplace=True)`). -/
def assignFfill (f : Frame) (name : String) (c : Col) : Frame :=
  let f2 := setColF f name c
  setColF f2 name (ffillCol (getCol f2 name))

/-- The observed-frame result of `handle_missing_xvar` after the DATE
coercions (lines 96-133).  `obs1` is the (copied, DATE-coerced) observed
frame, `sim'` the already-coerced simulated frame.  `none` models the
uncaught `KeyError` exceptions of lines 108 and 117-119 (accessing a missing
column of a frame raises to the caller — the function has no try/except). -/
def hmxResult (obs1 : Frame) (x_var : String) (sim' : Option Frame) : Option Frame :=
  -- lines 96-97; the second test of lines 98-100 is the same string
  -- membership again (f"{x_var}" == x_var), so its branch is unreachable
  if hasCol obs1 x_var then some obs1
  else if pyUpper x_var ∈ (["DAP", "DOY", "DAS"] : List String) then
    if hasCol obs1 "DATE" then
      if pyUpper x_var = "DOY" then
        -- line 106: obs["DATE"].dt.dayofyear
        some (assignFfill obs1 x_var ((getCol obs1 "DATE").map (fun c =>
          match c with
          | Cell.dt p => Cell.num p.doy
          | _ => Cell.na)))
      else
        -- lines 107-109 (DAP/DAS): reference start date from sim when the
        -- argument was supplied (KeyError when it lacks DATE), else from obs
        match sim' with
        | some sf =>
            if hasCol sf "DATE" then
              some (assignFfill obs1 x_var ((getCol obs1 "DATE").map (fun c =>
                match c, colMinDate (getCol sf "DATE") with
                | Cell.dt p, Cell.dt s => Cell.num ((pdOrdinal p : ℤ) - (pdOrdinal s : ℤ))
                | _, _ => Cell.na)))
            else none
        | none =>
            some (assignFfill obs1 x_var ((getCol obs1 "DATE").map (fun c =>
              match c, colMinDate (getCol obs1 "DATE") with
              | Cell.dt p, Cell.dt s => Cell.num ((pdOrdinal p : ℤ) - (pdOrdinal s : ℤ))
              | _, _ => Cell.na)))
    else
      -- lines 110-112: cannot derive without DATE; return unchanged
      some obs1
  else
    match sim' with
    | some sf =>
        if !frameEmpty sf then
          -- lines 115-123: infer from simulation data
          if hasCol sf "DATE" then
            if !hasCol obs1 "DATE" then none          -- line 118 KeyError
            else if !hasCol sf x_var then none        -- line 119 KeyError
            else
              some (assignFfill obs1 x_var ((getCol obs1 "DATE").map (fun c =>
                match c with
                | Cell.dt p =>
                    ((((uniqueList ((getCol sf "DATE").filterMap (fun s =>
                          match s with | Cell.dt d => some d | _ => none))).zip
                        (uniqueList ((getCol sf x_var).filter (fun s => s != Cell.na)))).find?
                        (fun q => q.1 == p)).map Prod.snd).getD Cell.na
                | _ => Cell.na)))
          else
            -- lines 124-125 warn; fall to the sequence fallback of lines 128-132
            some (assignFfill obs1 x_var (rangeCol (nRows obs1)))
        else
          some (assignFfill obs1 x_var (rangeCol (nRows obs1)))
    | none =>
        some (assignFfill obs1 x_var (rangeCol (nRows obs1)))

/-- `handle_missing_xvar` (src/data/data_processing.py, lines 82-133).

The first component is the returned observed frame (`none` = an uncaught
`KeyError`); the second component is the state of the `sim_data` argument
after the call.  The function is not pure in `sim_data`: line 93 assigns
`sim_data["DATE"] = pd.to_datetime(sim_data["DATE"], errors="coerce")` on the
caller's frame in place (the observed frame is copied at line 87, the
simulated one never is), and that single site is the only write to it. -/
def handle_missing_xvar (obs_data : Frame) (x_var : String) (sim_data : Option Frame) :
    Option Frame × Option Frame :=
  if frameEmpty obs_data then (some obs_data, sim_data)
  else
    let obs1 := coerceDATE obs_data
    let sim' := sim_data.map coerceDATE
    (hmxResult obs1 x_var sim', sim')

theorem find_map_setkey {β : Type} (f : List (String × β)) (k name : String) (c : β)
    (h : name ≠ k) :
    ((f.map (fun p => if p.1 == k then (p.1, c) else p)).find? (fun p => p.1 == name)).map
        Prod.snd =
      (f.find? (fun p => p.1 == name)).map Prod.snd := by
  induction f with
  | nil => rfl
  | cons p f ih =>
      simp only [List.map_cons]
      by_cases hpn : (p.1 == name) = true
      · have hpk : (p.1 == k) = false := by
          rcases Bool.eq_false_or_eq_true (p.1 == k) with hk | hk
          · exact absurd ((beq_iff_eq.1 hpn).symm.trans (beq_iff_eq.1 hk)) h
          · exact hk
        rw [if_neg (by simp [hpk])]
        simp only [List.find?_cons, hpn]
      · have hpn' : (p.1 == name) = false := by
          revert hpn
          cases p.1 == name <;> simp
        by_cases hpk : (p.1 == k) = true
        · rw [if_pos hpk]
          simp only [List.find?_cons, hpn']
          exact ih
        · rw [if_neg hpk]
          simp only [List.find?_cons, hpn']
          exact ih

theorem find_append_other {β : Type} (f : List (String × β)) (k name : String) (c : β)
    (h : name ≠ k) :
    (((f ++ [(k, c)]).find? (fun p => p.1 == name)).map Prod.snd) =
      ((f.find? (fun p => p.1 == name)).map Prod.snd) := by
  induction f with
  | nil =>
      have hk : (k == name) = false := beq_eq_false_iff_ne.2 (Ne.symm h)
      simp only [List.nil_append, List.find?_cons, hk]
  | cons p f ih =>
      simp only [List.cons_append, List.find?_cons]
      by_cases hpn : (p.1 == name) = true
      · simp only [hpn]
      · have hpn' : (p.1 == name) = false := by
          revert hpn
          cases p.1 == name <;> simp
        simp only [hpn']
        exact ih

theorem getCol_setColF_ne (f : Frame) (k name : String) (c : Col) (h : name ≠ k) :
    getCol (setColF f k c) name = getCol f name := by
  unfold getCol setColF
  by_cases hh : hasCol f k = true
  · rw [if_pos hh, find_map_setkey f k name c h]
  · rw [if_neg hh, find_append_other f k name c h]

theorem getCol_coerceDATE_ne (f : Frame) (name : String) (h : name ≠ "DATE") :
    getCol (coerceDATE f) name = getCol f name := by
  unfold coerceDATE
  by_cases hd : hasCol f "DATE" = true
  · rw [if_pos hd]
    exact getCol_setColF_ne f "DATE" name _ h
  · rw [if_neg hd]

/-! ## Claim C8: the case-insensitive column copy does not happen -/

/-- **C8 (code evaluation at the failing input).** With observed data
{"trno": [5, 7]}, requested x-variable "TRNO" (a case-insensitive match
exists, an exact one does not) and no simulated data, the function does not
copy the "trno" values under "TRNO": it falls through to the last-resort
fallback and synthesizes the 0-based row-index sequence [0, 1].  The second
membership test of lines 98-100 — the branch the spec describes as the
case-insensitive copy — tests the identical string `x_var` again, so it can
never fire when the first test failed. -/
theorem c8_case_insensitive_not_copied :
    (handle_missing_xvar [("trno", [Cell.num 5, Cell.num 7])] "TRNO" none).1 =
      some [("trno", [Cell.num 5, Cell.num 7]), ("TRNO", [Cell.num 0, Cell.num 1])] ∧
    getCol [("trno", [Cell.num 5, Cell.num 7]), ("TRNO", [Cell.num 0, Cell.num 1])] "TRNO" ≠
      [Cell.num 5, Cell.num 7] := by
  constructor
  · decide
  · decide

/-! ## Claim C9: the simulated frame is mutated through its DATE column -/

/-- **C9 (counterexample).** `handle_missing_xvar` does mutate its simulated
argument: with a sim frame whose DATE column holds the non-date string
"oops", the in-place coercion of line 93 turns that cell into NaT, so the
caller's frame differs after the call. -/
theorem c9_counterexample :
    (handle_missing_xvar [("A", [Cell.num 1])] "A"
        (some [("DATE", [Cell.str "oops"])])).2 = some [("DATE", [Cell.na])] ∧
    (some [("DATE", [Cell.na])] : Option Frame) ≠ some [("DATE", [Cell.str "oops"])] := by
  constructor
  · decide
  · decide

/-- **C9 (amended).** The only write to the simulated dataset is the in-place
datetime coercion of its DATE column (line 93, skipped when the observed frame
is empty): after any call, every column of the simulated frame other than DATE
is unchanged, a simulated frame without a DATE column is unchanged entirely,
and a `None` argument stays `None`. -/
theorem c9_sim_effect_amended :
    ∀ (obs : Frame) (x : String) (sim : Frame),
      ∃ simOut : Frame, (handle_missing_xvar obs x (some sim)).2 = some simOut ∧
        (∀ name, name ≠ "DATE" → getCol simOut name = getCol sim name) ∧
        (hasCol sim "DATE" = false → simOut = sim) ∧
        (handle_missing_xvar obs x none).2 = none := by
  intro obs x sim
  by_cases h : frameEmpty obs = true
  · refine ⟨sim, ?_, fun name _ => rfl, fun _ => rfl, ?_⟩
    · unfold handle_missing_xvar
      rw [if_pos h]
    · unfold handle_missing_xvar
      rw [if_pos h]
  · refine ⟨coerceDATE sim, ?_, ?_, ?_, ?_⟩
    · unfold handle_missing_xvar
      rw [if_neg h]
      rfl
    · intro name hname
      exact getCol_coerceDATE_ne sim name hname
    · intro hnd
      unfold coerceDATE
      rw [if_neg (by simp [hnd])]
    · unfold handle_missing_xvar
      rw [if_neg h]
      rfl

/-- Witness for `c9_sim_effect_amended` at a concrete call. -/
theorem c9_sim_effect_amended_witness :
    ∃ simOut : Frame,
      (handle_missing_xvar [("A", [Cell.num 1])] "A"
          (some [("DATE", [Cell.str "oops"]), ("X", [Cell.num 3])])).2 = some simOut ∧
      (∀ name, name ≠ "DATE" →
        getCol simOut name = getCol [("DATE", [Cell.str "oops"]), ("X", [Cell.num 3])] name) ∧
      (hasCol [("DATE", [Cell.str "oops"]), ("X", [Cell.num 3])] "DATE" = false →
        simOut = [("DATE", [Cell.str "oops"]), ("X", [Cell.num 3])]) ∧
      (handle_missing_xvar [("A", [Cell.num 1])] "A" none).2 = none :=
  c9_sim_effect_amended [("A", [Cell.num 1])] "A"
    [("DATE", [Cell.str "oops"]), ("X", [Cell.num 3])]
